import Mathlib

/-!
Verification development for the iCalLibrary core: a shallow embedding of
the calendar-component data model (abstract_components.py), the VJournal
kind (v_journal.py), the recurring-occurrence flyweight, and the raw
Property sub-property parser (property.py).

Modelling conventions:
* Date / DateTime instants and Durations are integers on a common timeline.
* Python truthiness is modelled explicitly where the source branches on it:
  a property object or a Date/DateTime is truthy iff it is not None, while a
  pendulum Duration (a timedelta subclass) is truthy iff it is non-zero.
* Fallible attribute reads return Except over an error inductive.
-/

namespace ICal

/-- A date or date-time property object (for instance DTStart or DTEnd): the
source reads its instant through datetime_or_date_value. -/
structure DTProp where
  value : Int
deriving DecidableEq, Repr

/-- A plain text property object such as Summary, Comment or UID. -/
structure StrProp where
  value : String
deriving DecidableEq, Repr

/-- An RRule property object; its recurrence fields are opaque here because
no claim depends on them. -/
structure RRuleProp where
  value : String
deriving DecidableEq, Repr

/-- The errors the embedded code can raise. MissingRequiredProperty comes
from ical_library.exceptions; valueError and attributeError are the Python
built-ins. unresolvedTimespan is MODELLED FROM THE SPEC error taxonomy
(section 7) so that statements about which error is raised can distinguish
it from the built-in ValueError the source actually uses. -/
inductive PyError where
  | missingRequiredProperty (propName : String)
  | valueError
  | attributeError
  | unresolvedTimespan
deriving DecidableEq, Repr

/-- The instance state of AbstractComponentWithDuration, as set by its
init (abstract_components.py lines 37-64). Parents and the extra
child/property collections of the Component base class are referenced by
opaque identifiers, since the Component base class is not part of the
analysed sources. EXDate and RDate property lists are flattened to their
instant contents. -/
structure ComponentWD where
  _dtstamp : Option DTProp
  _uid : Option StrProp
  dtstart : Option DTProp
  rrule : Option RRuleProp
  summary : Option StrProp
  exdate : Option (List Int)
  rdate : Option (List Int)
  comment : Option (List StrProp)
  _parent : Option Nat
  _name : String
  _extra_child_components : List Nat
  _extra_properties : List Nat
deriving DecidableEq, Repr

/-- The two abstract members of AbstractComponentWithDuration, supplied by
each concrete entity kind (VEvent, VToDo, VJournal): the ending property
and the get_duration method, both functions of the instance state. -/
structure KindImpl where
  ending : ComponentWD → Option DTProp
  get_duration : ComponentWD → Option Int

/-- The dtstamp getter (abstract_components.py lines 66-71): raises
MissingRequiredProperty when the stored field is None. -/
def dtstampGet (c : ComponentWD) : Except PyError DTProp :=
  match c._dtstamp with
  | none => .error (.missingRequiredProperty "dtstamp")
  | some v => .ok v

/-- The uid getter (abstract_components.py lines 78-83): raises
MissingRequiredProperty when the stored field is None. -/
def uidGet (c : ComponentWD) : Except PyError StrProp :=
  match c._uid with
  | none => .error (.missingRequiredProperty "uid")
  | some v => .ok v

/-- Python truthiness of an optional Duration: pendulum Duration subclasses
timedelta, so a zero duration is falsy and None is falsy. -/
def truthyDur : Option Int → Bool
  | some d => !(d == 0)
  | none => false

/-- The start property (abstract_components.py lines 130-134): the dtstart
instant when dtstart is set, otherwise None. -/
def pyStart (c : ComponentWD) : Option Int :=
  c.dtstart.map DTProp.value

/-- The end property (abstract_components.py lines 136-144): the ending
instant when the ending property object is truthy (set), otherwise
start plus get_duration when start is truthy and the duration is truthy
(non-None AND non-zero), otherwise None. -/
def pyEnd (k : KindImpl) (c : ComponentWD) : Option Int :=
  match k.ending c with
  | some dt => some dt.value
  | none =>
    match pyStart c, k.get_duration c with
    | some s, some d => if d == 0 then none else some (s + d)
    | _, _ => none

/-- The computed_duration property (abstract_components.py lines 146-155):
get_duration when truthy (non-None and non-zero), otherwise end minus start
when both are set, otherwise None. -/
def pyComputedDuration (k : KindImpl) (c : ComponentWD) : Option Int :=
  match k.get_duration c with
  | some d =>
    if d == 0 then
      match pyEnd k c, pyStart c with
      | some e, some s => some (e - s)
      | _, _ => none
    else some d
  | none =>
    match pyEnd k c, pyStart c with
    | some e, some s => some (e - s)
    | _, _ => none

/-- The TimespanWithParent value built by the timespan property: begin,
end and the owning component as parent. -/
structure TimespanWithParent where
  parent : ComponentWD
  tsBegin : Int
  tsEnd : Int
deriving DecidableEq, Repr

/-- The timespan property (abstract_components.py lines 120-128): raises the
built-in ValueError when start or end is None, otherwise returns a
TimespanWithParent with the component itself as parent. -/
def timespan (k : KindImpl) (c : ComponentWD) : Except PyError TimespanWithParent :=
  match pyStart c, pyEnd k c with
  | some s, some e => .ok ⟨c, s, e⟩
  | _, _ => .error .valueError

/-- VJournal.ending (v_journal.py lines 51-53): returns the dtstart
property itself. -/
def VJournal_ending (c : ComponentWD) : Option DTProp :=
  c.dtstart

/-- VJournal.get_duration (v_journal.py lines 55-56): always returns the
zero Duration. -/
def VJournal_get_duration (_c : ComponentWD) : Option Int :=
  some 0

/-- The VJournal entity kind: its ending and duration implementations. -/
def VJournalKind : KindImpl :=
  ⟨VJournal_ending, VJournal_get_duration⟩

/-- The attribute names the flyweight dispatch distinguishes: the four
public view attributes, their four underscore-prefixed instance fields, the
three internal Component fields forwarded by name, the component property
attributes, the two underscore fields backing the required properties, and
a catch-all for any other attribute name. -/
inductive Attr where
  | start
  | end_
  | original
  | parent
  | uStart
  | uEnd
  | uOriginal
  | uParent
  | uName
  | uExtraChild
  | uExtraProps
  | dtstamp
  | uid
  | dtstart
  | rrule
  | summary
  | exdate
  | rdate
  | comment
  | uDtstamp
  | uUid
  | other (s : String)
deriving DecidableEq, Repr

/-- A Python attribute value in this model. -/
inductive PyValue where
  | vNone
  | vDT (d : DTProp)
  | vStr (s : StrProp)
  | vRRule (r : RRuleProp)
  | vInstants (l : List Int)
  | vStrList (l : List StrProp)
  | vCompRef (n : Nat)
  | vMaster (m : ComponentWD)
  | vInstant (i : Int)
  | vText (s : String)
  | vNatList (l : List Nat)
deriving DecidableEq, Repr

/-- Wrap an optional value, None becoming vNone. -/
def optVal (f : α → PyValue) : Option α → PyValue
  | none => .vNone
  | some x => f x

/-- The normal attribute protocol on a master component: each attribute
reads the corresponding instance field; dtstamp and uid go through their
getters and can raise MissingRequiredProperty; parent is the Component base
property returning the stored parent reference; start and end are the
derived properties; attributes the master does not have raise
AttributeError. -/
def master_getattr (k : KindImpl) (m : ComponentWD) : Attr → Except PyError PyValue
  | .dtstamp => (dtstampGet m).map .vDT
  | .uid => (uidGet m).map .vStr
  | .dtstart => .ok (optVal .vDT m.dtstart)
  | .rrule => .ok (optVal .vRRule m.rrule)
  | .summary => .ok (optVal .vStr m.summary)
  | .exdate => .ok (optVal .vInstants m.exdate)
  | .rdate => .ok (optVal .vInstants m.rdate)
  | .comment => .ok (optVal .vStrList m.comment)
  | .uDtstamp => .ok (optVal .vDT m._dtstamp)
  | .uUid => .ok (optVal .vStr m._uid)
  | .parent => .ok (optVal .vCompRef m._parent)
  | .uParent => .ok (optVal .vCompRef m._parent)
  | .uName => .ok (.vText m._name)
  | .uExtraChild => .ok (.vNatList m._extra_child_components)
  | .uExtraProps => .ok (.vNatList m._extra_properties)
  | .start => .ok (optVal .vInstant (pyStart m))
  | .end_ => .ok (optVal .vInstant (pyEnd k m))
  | .uStart => .error .attributeError
  | .uEnd => .error .attributeError
  | .uOriginal => .error .attributeError
  | .original => .error .attributeError
  | .other _ => .error .attributeError

/-- The instance state of a recurring flyweight (VRecurringJournal init,
v_journal.py lines 87-92): the four fields the init stores, plus the
overlay of attributes written later through the restored standard
setattr, most recent write first. -/
structure RecurringFW where
  _start : Int
  _end : Int
  _original : ComponentWD
  _parentC : ComponentWD
  overlay : List (Attr × PyValue)
deriving DecidableEq, Repr

/-- The flyweight the expansion constructs (v_journal.py lines 87-92):
underscore parent is set to the original component itself and the overlay
is empty. -/
def VRecurringJournal_mk (original : ComponentWD) (s e : Int) : RecurringFW :=
  ⟨s, e, original, original, []⟩

/-- First matching entry of the written-attribute overlay, the Python
instance dictionary semantics for attributes written after init. -/
def lookupOverlay : List (Attr × PyValue) → Attr → Option PyValue
  | [], _ => none
  | (b, v) :: rest, a => if a = b then some v else lookupOverlay rest a

/-- The value of the flyweight instance field underscore-original, with any
later write shadowing the init value; reading parent through it needs an
actual component, anything else raises AttributeError. -/
def resolvedOriginal (f : RecurringFW) : Except PyError ComponentWD :=
  match lookupOverlay f.overlay .uOriginal with
  | some (.vMaster m) => .ok m
  | some _ => .error .attributeError
  | none => .ok f._original

/-- The attribute names routed to the local object protocol
(abstract_components.py line 178). -/
def special8 : List Attr :=
  [.start, .end_, .original, .parent, .uStart, .uEnd, .uOriginal, .uParent]

/-- The internal Component fields forwarded to the original by name
(abstract_components.py line 180). -/
def internal3 : List Attr :=
  [.uName, .uExtraChild, .uExtraProps]

/-- Modelled from the spec: Component.get_property_ical_names is not under
src/. Per the spec (section 4.4) the flyweight forwards the whole readable
property surface of its master, so this is the list of the master
component property attributes of the data model. -/
def property_ical_names : List Attr :=
  [.dtstamp, .uid, .dtstart, .rrule, .summary, .exdate, .rdate, .comment]

/-- The four public view properties of the flyweight class
(abstract_components.py lines 190-208): data descriptors with no setter,
so Python rejects writes to them with AttributeError. -/
def viewProps : List Attr :=
  [.start, .end_, .original, .parent]

/-- object.__getattribute__ on the flyweight: the class properties start,
end, original and parent (abstract_components.py lines 190-208) are data
descriptors and win over the instance dictionary; the parent property
reads the parent of the original component; everything else reads the
instance dictionary (the init fields and the overlay) and raises
AttributeError when absent. -/
def object_getattr_fw (k : KindImpl) (f : RecurringFW) : Attr → Except PyError PyValue
  | .start => .ok ((lookupOverlay f.overlay .uStart).getD (.vInstant f._start))
  | .end_ => .ok ((lookupOverlay f.overlay .uEnd).getD (.vInstant f._end))
  | .original => .ok ((lookupOverlay f.overlay .uOriginal).getD (.vMaster f._original))
  | .parent =>
    match resolvedOriginal f with
    | .ok m => master_getattr k m .parent
    | .error e => .error e
  | .uStart => .ok ((lookupOverlay f.overlay .uStart).getD (.vInstant f._start))
  | .uEnd => .ok ((lookupOverlay f.overlay .uEnd).getD (.vInstant f._end))
  | .uOriginal => .ok ((lookupOverlay f.overlay .uOriginal).getD (.vMaster f._original))
  | .uParent => .ok ((lookupOverlay f.overlay .uParent).getD (.vMaster f._parentC))
  | a =>
    match lookupOverlay f.overlay a with
    | some v => .ok v
    | none => .error .attributeError

/-- AbstractRecurringComponentWithDuration.__getattribute__
(abstract_components.py lines 169-184): the eight special names go to the
local object protocol; the three internal names and the property surface
names are read from the original component; everything else goes to the
local object protocol. -/
def fw_getattribute (k : KindImpl) (f : RecurringFW) (a : Attr) : Except PyError PyValue :=
  if a ∈ special8 then object_getattr_fw k f a
  else if a ∈ internal3 then
    match resolvedOriginal f with
    | .ok m => master_getattr k m a
    | .error e => .error e
  else if a ∈ property_ical_names then
    match resolvedOriginal f with
    | .ok m => master_getattr k m a
    | .error e => .error e
  else object_getattr_fw k f a

/-- AbstractRecurringComponentWithDuration.__setattr__
(abstract_components.py lines 186-188): plain object.__setattr__, writing
the flyweight instance dictionary only; the original component is never
touched. Writes to the four public view properties start, end, original
and parent hit setter-less data descriptors and raise AttributeError;
writes to dtstamp and uid go through the inherited property setters
(abstract_components.py lines 73-76 and 85-88), which store the
underscore-prefixed instance field; every other modelled name is a plain
instance-dictionary write (Attr.other stands for attribute names with no
descriptor on the class). -/
def fw_setattr (f : RecurringFW) (a : Attr) (v : PyValue) : Except PyError RecurringFW :=
  match a with
  | .start => .error .attributeError
  | .end_ => .error .attributeError
  | .original => .error .attributeError
  | .parent => .error .attributeError
  | .dtstamp => .ok ⟨f._start, f._end, f._original, f._parentC, (.uDtstamp, v) :: f.overlay⟩
  | .uid => .ok ⟨f._start, f._end, f._original, f._parentC, (.uUid, v) :: f.overlay⟩
  | a => .ok ⟨f._start, f._end, f._original, f._parentC, (a, v) :: f.overlay⟩

/-- Equality of two attribute-read results, comparing values by value. -/
def readsEq (x y : Except PyError PyValue) : Bool :=
  match x, y with
  | .ok a, .ok b => a == b
  | .error a, .error b => a == b
  | _, _ => false

/-- AbstractComponentWithDuration.__eq__ (abstract_components.py lines
109-118) invoked with two VRecurringJournal receivers of the same concrete
kind: each of self.dtstart, self.ending, self.summary and self.comment is
read through the overridden attribute protocol, and VJournal.ending
evaluates self.dtstart on the flyweight as well. Property objects compare
by value. -/
def VRecurringJournal_eq (f g : RecurringFW) : Bool :=
  readsEq (fw_getattribute VJournalKind f .dtstart) (fw_getattribute VJournalKind g .dtstart)
    && readsEq (fw_getattribute VJournalKind f .dtstart) (fw_getattribute VJournalKind g .dtstart)
    && readsEq (fw_getattribute VJournalKind f .summary) (fw_getattribute VJournalKind g .summary)
    && readsEq (fw_getattribute VJournalKind f .comment) (fw_getattribute VJournalKind g .comment)

/-- A query range, the half-open interval from tsFrom to tsTo. -/
structure QueryRange where
  tsFrom : Int
  tsTo : Int
deriving DecidableEq, Repr

/-- One element of the expansion output: the master entity itself or a
recurring flyweight. -/
inductive ExpandItem where
  | masterItem (m : ComponentWD)
  | occ (f : RecurringFW)
deriving DecidableEq, Repr

/-- Insert into an ascending list keeping order. -/
def insertAsc (x : Int) : List Int → List Int
  | [] => [x]
  | y :: ys => if x ≤ y then x :: y :: ys else y :: insertAsc x ys

/-- Sort ascending. -/
def sortAsc (l : List Int) : List Int :=
  l.foldr insertAsc []

/-- Remove adjacent duplicates of a sorted list. -/
def dedupAdj : List Int → List Int
  | [] => []
  | [x] => [x]
  | x :: y :: rest => if x == y then dedupAdj (y :: rest) else x :: dedupAdj (y :: rest)

/-- Modelled from the spec: property_utils.expand_component_in_range is not
under src/. Following section 4.2: take the recurrence-rule evaluator
output (passed here as ruleInstants, clipped by the range upper bound as
horizon) together with the explicit RDATE additions, sort ascending and
deduplicate, drop the EXDATE exclusions, pair each surviving start with
start plus the master computed duration, and keep the pairs whose interval
intersects the half-open query range. -/
def property_utils_expand (exdateList rdateList ruleInstants : List Int)
    (firstStart : Option Int) (firstDur : Option Int) (rng : QueryRange) :
    List (Int × Int) :=
  match firstStart, firstDur with
  | some _, some dur =>
    let merged := sortAsc (ruleInstants.filter (fun i => i < rng.tsTo) ++ rdateList)
    let kept := (dedupAdj merged).filter (fun i => !(exdateList.contains i))
    let pairs := kept.map (fun s => (s, s + dur))
    pairs.filter (fun p => p.1 < rng.tsTo && rng.tsFrom < p.2)
  | _, _ => []

/-- VJournal.expand_component_in_range (v_journal.py lines 58-75): the
generator yields the master itself first, unconditionally, then one
VRecurringJournal flyweight per pair produced by the range expansion of
the recurrence properties. The recurrence-rule evaluator output is a
parameter, since the evaluator is outside the analysed sources. -/
def expand_component_in_range (m : ComponentWD) (rng : QueryRange)
    (ruleInstants : List Int) : List ExpandItem :=
  .masterItem m ::
    (property_utils_expand (m.exdate.getD []) (m.rdate.getD []) ruleInstants
        (pyStart m) (pyComputedDuration VJournalKind m) rng).map
      (fun p => .occ (VRecurringJournal_mk m p.1 p.2))

/-- Python str.split with a one-character separator, on character lists:
the empty input gives one empty part, and every separator occurrence
starts a new part, adjacent separators giving empty parts. -/
def splitOnChar (sep : Char) : List Char → List (List Char)
  | [] => [[]]
  | c :: rest =>
    let r := splitOnChar sep rest
    if c == sep then [] :: r
    else
      match r with
      | [] => [[c]]
      | h :: t => (c :: h) :: t

/-- Python str.split with a one-character separator, on strings. -/
def pySplit (sep : Char) (s : String) : List String :=
  (splitOnChar sep s.toList).map (fun cs => ⟨cs⟩)

/-- Count of equality-sign characters of a token, the Python
str.count of the source. -/
def countEqChar (t : String) : Nat :=
  t.toList.countP (fun ch => ch == '=')

/-- The part of a token before its first equality sign, the Python
token.split at index zero. -/
def keyOf (t : String) : String :=
  (pySplit '=' t).getD 0 ""

/-- The part of a token after its first equality sign, the Python
token.split at index one; the index is in range for every token the
comprehension keeps, since those contain exactly one equality sign. -/
def valOf (t : String) : String :=
  (pySplit '=' t).getD 1 ""

/-- Insert a key and value into an association-list dictionary with Python
dict semantics: an existing key keeps its position and takes the new
value, a new key is appended. -/
def dictInsert (d : List (String × String)) (key v : String) : List (String × String) :=
  if d.any (fun p => p.1 == key) then
    d.map (fun p => if p.1 == key then (key, v) else p)
  else d ++ [(key, v)]

/-- Property.sub_properties (property.py lines 25-33): the stored
sub-properties string, with None becoming the empty string, is split on
semicolons; tokens with exactly one equality sign are mapped key to value
into a dictionary; tokens with zero or more than one equality sign are
dropped. The function is total: it never raises. -/
def sub_properties (subProps : Option String) : List (String × String) :=
  let s := subProps.getD ""
  ((pySplit ';' s).filter (fun t => countEqChar t == 1)).foldl
    (fun d t => dictInsert d (keyOf t) (valOf t)) []

/-- The claim-side description of sub_properties, written from its words: a
null sub-properties string yields the empty dictionary, and otherwise the
dictionary is built from the semicolon-separated tokens, mapping key to
value for exactly those tokens containing exactly one equality sign. -/
def sub_properties_claimed (subProps : Option String) : List (String × String) :=
  match subProps with
  | none => []
  | some s =>
    ((pySplit ';' s).filter (fun t => countEqChar t == 1)).foldl
      (fun d t => dictInsert d (keyOf t) (valOf t)) []

/-- The claim-side description of the end property as claim C6 words it:
ending when resolvable, else start plus duration when both are resolvable,
the zero duration included, else None. -/
def pyEnd_claimed (k : KindImpl) (c : ComponentWD) : Option Int :=
  match k.ending c with
  | some dt => some dt.value
  | none =>
    match pyStart c, k.get_duration c with
    | some s, some d => some (s + d)
    | _, _ => none

/-- A fully populated journal master used by concrete witnesses and
counterexamples. -/
def mA : ComponentWD :=
  ⟨some ⟨100⟩, some ⟨"uid-1"⟩, some ⟨10⟩, some ⟨"FREQ=DAILY"⟩,
    some ⟨"master summary"⟩, some [20], some [30], some [⟨"a comment"⟩],
    some 7, "VJOURNAL", [], []⟩

/-- A master with no dtstart, so its start and end are both None. -/
def mNoStart : ComponentWD :=
  ⟨some ⟨100⟩, some ⟨"uid-2"⟩, none, none, none, none, none, none,
    none, "VJOURNAL", [], []⟩

/-- A component whose dtstart instant is zero. -/
def cStart0 : ComponentWD :=
  ⟨none, none, some ⟨0⟩, none, none, none, none, none, none, "VEVENT", [], []⟩

/-- An entity kind with no resolvable ending and an explicit zero
duration, such as a VEvent with no DTEnd and a zero Duration property. -/
def kZeroDur : KindImpl :=
  ⟨fun _ => none, fun _ => some 0⟩

/-- An entity kind with an explicit ending at instant 5 and an explicit
duration of 7, mutually inconsistent with a start at 0. -/
def kMismatch : KindImpl :=
  ⟨fun _ => some ⟨5⟩, fun _ => some 7⟩

/-- A text property value written locally onto a flyweight. -/
def sLocal : StrProp :=
  ⟨"local text"⟩

/-- A fresh flyweight of mA with instance start 1 and end 2. -/
def fwSame1 : RecurringFW :=
  VRecurringJournal_mk mA 1 2

/-- A fresh flyweight of the same master mA with instance start 3 and
end 4. -/
def fwSame2 : RecurringFW :=
  VRecurringJournal_mk mA 3 4

/-- The flyweight fwSame1 after a write to its summary attribute: the
instance dictionary gains a summary entry and nothing else changes. -/
def fwWritten : RecurringFW :=
  ⟨1, 2, mA, mA, [(.summary, .vStr sLocal)]⟩

/-! ## Helper lemmas -/

/-- Wrapping date properties is injective, None included. -/
theorem optVal_vDT_eq (a b : Option DTProp) :
    optVal .vDT a = optVal .vDT b ↔ a = b := by
  cases a <;> cases b <;> simp [optVal]

/-- Wrapping text properties is injective, None included. -/
theorem optVal_vStr_eq (a b : Option StrProp) :
    optVal .vStr a = optVal .vStr b ↔ a = b := by
  cases a <;> cases b <;> simp [optVal]

/-- Wrapping text property lists is injective, None included. -/
theorem optVal_vStrList_eq (a b : Option (List StrProp)) :
    optVal .vStrList a = optVal .vStrList b ↔ a = b := by
  cases a <;> cases b <;> simp [optVal]

/-- On a flyweight with no written attributes, reads of the forwarded
names resolve to the original component's attribute protocol. -/
theorem fw_forward_fresh (k : KindImpl) (f : RecurringFW) (a : Attr)
    (h : f.overlay = []) (ha : a ∈ property_ical_names ∨ a ∈ internal3) :
    fw_getattribute k f a = master_getattr k f._original a := by
  rcases f with ⟨fs, fe, orig, par, ov⟩
  dsimp at h
  subst h
  rcases ha with ha | ha <;> fin_cases ha <;> rfl

/-- Membership in the Python-style dictionary insert: an element of the
result was already present or is the inserted pair. -/
theorem mem_dictInsert (d : List (String × String)) (key v : String)
    (p : String × String) (hp : p ∈ dictInsert d key v) :
    p ∈ d ∨ p = (key, v) := by
  unfold dictInsert at hp
  split at hp
  · rcases List.mem_map.mp hp with ⟨q, hq, hpq⟩
    by_cases h : q.1 == key
    · right
      rw [if_pos h] at hpq
      exact hpq.symm
    · left
      rw [if_neg h] at hpq
      exact hpq ▸ hq
  · rcases List.mem_append.mp hp with h | h
    · exact Or.inl h
    · right
      simpa using h

/-- Every pair of the dictionary fold satisfies an invariant holding of
the seed dictionary and of every inserted token pair. -/
theorem mem_foldl_dictInsert (P : String × String → Prop)
    (l : List String) (d : List (String × String))
    (hd : ∀ p ∈ d, P p) (hl : ∀ t ∈ l, P (keyOf t, valOf t)) :
    ∀ p ∈ l.foldl (fun acc t => dictInsert acc (keyOf t) (valOf t)) d, P p := by
  induction l generalizing d with
  | nil => exact hd
  | cons t rest ih =>
    intro p hp
    refine ih (dictInsert d (keyOf t) (valOf t)) ?_
      (fun u hu => hl u (List.mem_cons_of_mem _ hu)) p hp
    intro q hq
    rcases mem_dictInsert d (keyOf t) (valOf t) q hq with h | h
    · exact hd q h
    · exact h ▸ hl t (List.mem_cons_self _ _)

/-! ## Claim theorems -/

/-- C1: for every recurring master entity and every query range (and every
recurrence-evaluator output), the expansion emits the master itself, whose
pair of start and end values is its own, as the first element,
unconditionally and with no range-intersection condition. -/
theorem expand_component_in_range_head (m : ComponentWD) (rng : QueryRange)
    (ruleInstants : List Int) :
    (expand_component_in_range m rng ruleInstants).head? = some (.masterItem m) :=
  rfl

/-- C3: reading dtstamp or uid when the stored field is None raises
MissingRequiredProperty naming that property; when set, the read returns
the stored value unchanged. -/
theorem required_property_getters (c : ComponentWD) :
    (c._dtstamp = none →
      dtstampGet c = .error (.missingRequiredProperty "dtstamp"))
    ∧ (∀ v, c._dtstamp = some v → dtstampGet c = .ok v)
    ∧ (c._uid = none → uidGet c = .error (.missingRequiredProperty "uid"))
    ∧ (∀ v, c._uid = some v → uidGet c = .ok v) := by
  refine ⟨fun h => ?_, fun v h => ?_, fun h => ?_, fun v h => ?_⟩ <;>
    simp [dtstampGet, uidGet, h]

/-- C8: the VJournal kind returns its dtstart property as its ending and
always returns the zero duration, regardless of the entity's other
properties. -/
theorem vjournal_ending_and_duration (c : ComponentWD) :
    VJournal_ending c = c.dtstart
    ∧ VJournal_get_duration c = some 0
    ∧ VJournalKind.ending c = c.dtstart
    ∧ VJournalKind.get_duration c = some 0 :=
  ⟨rfl, rfl, rfl, rfl⟩

/-- C6 counterexample: for an entity with start 0, no resolvable ending
and an explicit zero duration, the claim as stated predicts end 0 + 0,
but the code yields None, because a zero duration is falsy in the
source's truthiness test. -/
theorem end_zero_duration_cex :
    pyEnd kZeroDur cStart0 = none
    ∧ pyEnd_claimed kZeroDur cStart0 = some 0 :=
  ⟨rfl, rfl⟩

/-- C6 amended: end equals the ending value when the ending property is
set; otherwise it is start plus duration only when start is set and the
duration is set AND non-zero; otherwise (the zero duration included) it
is None. -/
theorem end_value_cases (k : KindImpl) (c : ComponentWD) :
    (∀ dt, k.ending c = some dt → pyEnd k c = some dt.value)
    ∧ (k.ending c = none → ∀ s d, pyStart c = some s →
        k.get_duration c = some d → d ≠ 0 → pyEnd k c = some (s + d))
    ∧ (k.ending c = none →
        (pyStart c = none ∨ k.get_duration c = none ∨ k.get_duration c = some 0) →
        pyEnd k c = none) := by
  refine ⟨fun dt h => ?_, fun h s d hs hd hne => ?_, fun h hcase => ?_⟩
  · simp [pyEnd, h]
  · simp [pyEnd, h, hs, hd, hne]
  · rcases hcase with hc | hc | hc <;> cases hps : pyStart c <;>
      simp [pyEnd, h, hc, hps]

/-- C7 counterexample: an entity with start 0, an explicit ending at 5 and
an explicit duration of 7 has computed_duration 7, yet its end is the
ending value 5, not start plus computed_duration. -/
theorem computed_duration_mismatch_cex :
    pyStart cStart0 = some 0
    ∧ pyComputedDuration kMismatch cStart0 = some 7
    ∧ pyEnd kMismatch cStart0 = some 5
    ∧ pyEnd kMismatch cStart0 ≠ some (0 + 7) := by
  refine ⟨rfl, rfl, rfl, ?_⟩
  decide

/-- C7 amended: whenever start and end are both resolvable AND the entity
has no resolvable ending or its explicit duration is falsy (None or
zero), end equals start plus computed_duration. The exception forced by
the counterexample is an entity carrying both an explicit ending and a
non-zero explicit duration, where end is the ending value. -/
theorem end_eq_start_add_computed (k : KindImpl) (c : ComponentWD) (s e : Int)
    (hs : pyStart c = some s) (he : pyEnd k c = some e)
    (hok : k.ending c = none ∨ truthyDur (k.get_duration c) = false) :
    ∃ d, pyComputedDuration k c = some d ∧ e = s + d := by
  rcases hok with hend | hfal
  · rcases hdur : k.get_duration c with _ | d
    · exfalso
      rw [pyEnd, hend, hs, hdur] at he
      exact Option.noConfusion he
    · by_cases hz : d = 0
      · exfalso
        rw [pyEnd, hend, hs, hdur] at he
        simp [hz] at he
      · rw [pyEnd, hend, hs, hdur] at he
        simp [hz] at he
        refine ⟨d, ?_, ?_⟩
        · simp [pyComputedDuration, hdur, hz]
        · omega
  · have hdn : k.get_duration c = none ∨ k.get_duration c = some 0 := by
      rcases hdur : k.get_duration c with _ | d
      · exact Or.inl rfl
      · right
        rw [hdur] at hfal
        simp [truthyDur] at hfal
        simp [hfal]
    refine ⟨e - s, ?_, by omega⟩
    rcases hdn with hdur | hdur <;> simp [pyComputedDuration, hdur, he, hs]

/-- C7 witness: a journal master with start 10 satisfies the amended
relation with computed duration 0. -/
theorem end_eq_start_add_computed_witness :
    ∃ d, pyComputedDuration VJournalKind mA = some d ∧ (10 : Int) = 10 + d :=
  end_eq_start_add_computed VJournalKind mA 10 10 rfl rfl (Or.inr rfl)

/-- C2: on a freshly created occurrence flyweight, reads of the forwarded
attribute surface (the property names and the internal component fields)
return the original master's attribute; reads of start, end and original
return the flyweight's own fields; and a read of parent returns the
master's parent, not a flyweight-local field. -/
theorem fw_read_surface (k : KindImpl) (f : RecurringFW) (h : f.overlay = []) :
    (∀ a, (a ∈ property_ical_names ∨ a ∈ internal3) →
      fw_getattribute k f a = master_getattr k f._original a)
    ∧ fw_getattribute k f .start = .ok (.vInstant f._start)
    ∧ fw_getattribute k f .end_ = .ok (.vInstant f._end)
    ∧ fw_getattribute k f .original = .ok (.vMaster f._original)
    ∧ fw_getattribute k f .parent = master_getattr k f._original .parent := by
  refine ⟨fun a ha => fw_forward_fresh k f a h ha, ?_, ?_, ?_, ?_⟩ <;>
    (rcases f with ⟨fs, fe, orig, par, ov⟩; dsimp at h; subst h; rfl)

/-- C2 witness: the read surface contract at the concrete fresh flyweight
fwSame1 of master mA. -/
theorem fw_read_surface_witness :
    (∀ a, (a ∈ property_ical_names ∨ a ∈ internal3) →
      fw_getattribute VJournalKind fwSame1 a
        = master_getattr VJournalKind fwSame1._original a)
    ∧ fw_getattribute VJournalKind fwSame1 .start = .ok (.vInstant fwSame1._start)
    ∧ fw_getattribute VJournalKind fwSame1 .end_ = .ok (.vInstant fwSame1._end)
    ∧ fw_getattribute VJournalKind fwSame1 .original = .ok (.vMaster fwSame1._original)
    ∧ fw_getattribute VJournalKind fwSame1 .parent
        = master_getattr VJournalKind fwSame1._original .parent :=
  fw_read_surface VJournalKind fwSame1 rfl

/-- C4 counterexample: requesting the timespan of an entity with no
resolvable start raises the built-in ValueError, not the spec's dedicated
UnresolvedTimespan error. -/
theorem timespan_error_kind_cex :
    timespan VJournalKind mNoStart = .error .valueError
    ∧ timespan VJournalKind mNoStart ≠ .error .unresolvedTimespan := by
  refine ⟨rfl, fun h => ?_⟩
  have h2 : (Except.error PyError.valueError : Except PyError TimespanWithParent)
      = .error .unresolvedTimespan := h
  exact PyError.noConfusion (Except.error.inj h2)

/-- C4 amended: requesting a Timespan when the resolved start or end is
None fails by raising the built-in ValueError (not a dedicated
UnresolvedTimespan error); when both are resolved it returns a Timespan
with that start as begin, that end as end, and the entity as parent. -/
theorem timespan_cases (k : KindImpl) (c : ComponentWD) :
    ((pyStart c = none ∨ pyEnd k c = none) → timespan k c = .error .valueError)
    ∧ (∀ s e, pyStart c = some s → pyEnd k c = some e →
        timespan k c = .ok ⟨c, s, e⟩) := by
  constructor
  · intro h
    rcases h with h | h
    · simp [timespan, h]
    · cases hs : pyStart c <;> simp [timespan, h, hs]
  · intro s e hs he
    simp [timespan, hs, he]

/-- C5 counterexample: two fresh occurrence flyweights of the same master
with different instance start and end values compare equal, because the
source equality reads dtstart, ending, summary and comment, which all
forward to the master. -/
theorem recurring_eq_same_master_cex :
    VRecurringJournal_eq fwSame1 fwSame2 = true
    ∧ fwSame1._start ≠ fwSame2._start
    ∧ fwSame1._end ≠ fwSame2._end := by
  refine ⟨rfl, ?_, ?_⟩ <;> decide

/-- C5 amended: for fresh journal occurrence flyweights of the same
concrete kind, the source equality holds iff the two masters agree on
dtstart (which also gives the journal ending), summary and comment; the
flyweight-local start and end never participate, so object identity is
irrelevant and occurrences of one master are all equal. -/
theorem recurring_eq_characterization (f g : RecurringFW)
    (hf : f.overlay = []) (hg : g.overlay = []) :
    VRecurringJournal_eq f g = true ↔
      (f._original.dtstart = g._original.dtstart
        ∧ f._original.summary = g._original.summary
        ∧ f._original.comment = g._original.comment) := by
  unfold VRecurringJournal_eq
  rw [fw_forward_fresh VJournalKind f .dtstart hf (Or.inl (by decide)),
    fw_forward_fresh VJournalKind g .dtstart hg (Or.inl (by decide)),
    fw_forward_fresh VJournalKind f .summary hf (Or.inl (by decide)),
    fw_forward_fresh VJournalKind g .summary hg (Or.inl (by decide)),
    fw_forward_fresh VJournalKind f .comment hf (Or.inl (by decide)),
    fw_forward_fresh VJournalKind g .comment hg (Or.inl (by decide))]
  simp only [master_getattr, readsEq, Bool.and_eq_true, beq_iff_eq,
    optVal_vDT_eq, optVal_vStr_eq, optVal_vStrList_eq]
  tauto

/-- C5 witness: the characterization at the concrete flyweights fwSame1
and fwSame2. -/
theorem recurring_eq_characterization_witness :
    VRecurringJournal_eq fwSame1 fwSame2 = true ↔
      (fwSame1._original.dtstart = fwSame2._original.dtstart
        ∧ fwSame1._original.summary = fwSame2._original.summary
        ∧ fwSame1._original.comment = fwSame2._original.comment) :=
  recurring_eq_characterization fwSame1 fwSame2 rfl rfl

/-- C9 counterexample: writing the summary attribute on a flyweight
succeeds and leaves the master untouched, but a subsequent read of
summary still returns the master's value, not the locally written one:
the local write is invisible because reads of forwarded attributes never
consult the instance dictionary. -/
theorem fw_write_shadow_invisible_cex :
    fw_setattr fwSame1 .summary (.vStr sLocal) = .ok fwWritten
    ∧ fwWritten._original = mA
    ∧ fw_getattribute VJournalKind fwWritten .summary
        = .ok (.vStr ⟨"master summary"⟩)
    ∧ (PyValue.vStr ⟨"master summary"⟩) ≠ .vStr sLocal := by
  refine ⟨rfl, rfl, rfl, ?_⟩
  decide

/-- C9 amended: writes to the four setter-less view properties fail with
AttributeError and change nothing; every other write succeeds, stores
only a flyweight-local field and leaves the master and the instance
start and end unchanged. A subsequent read of the written attribute
returns the locally written value exactly for attributes outside the
forwarded set (the property surface and the three internal component
fields); a read of a forwarded attribute is unaffected by the write and
still returns the master's value. A write to the underscore field behind
start is returned by subsequent reads of that field and of start. -/
theorem fw_setattr_frame (k : KindImpl) (f : RecurringFW) (a : Attr) (v : PyValue) :
    (a ∈ viewProps → fw_setattr f a v = .error .attributeError)
    ∧ (a ∉ viewProps → ∃ g, fw_setattr f a v = .ok g)
    ∧ (∀ g, fw_setattr f a v = .ok g →
        g._original = f._original ∧ g._start = f._start ∧ g._end = f._end)
    ∧ (∀ g, fw_setattr f a v = .ok g → a ∉ internal3 → a ∉ property_ical_names →
        fw_getattribute k g a = .ok v)
    ∧ (∀ g, fw_setattr f a v = .ok g →
        (a ∈ internal3 ∨ a ∈ property_ical_names) →
        fw_getattribute k g a = fw_getattribute k f a)
    ∧ (∀ g, fw_setattr f .uStart v = .ok g →
        fw_getattribute k g .uStart = .ok v ∧ fw_getattribute k g .start = .ok v) := by
  refine ⟨fun hv => ?_, fun hv => ?_, fun g hg => ?_, fun g hg h3 hp => ?_,
    fun g hg hf => ?_, fun g hg => ?_⟩
  · fin_cases hv <;> rfl
  · cases a <;>
      first
        | exact ⟨_, rfl⟩
        | exact absurd (by decide) hv
  · cases a <;>
      first
        | exact Except.noConfusion hg
        | (injection hg with h; subst h; exact ⟨rfl, rfl, rfl⟩)
  · cases a <;>
      first
        | exact Except.noConfusion hg
        | exact absurd (by decide) h3
        | exact absurd (by decide) hp
        | (injection hg with h; subst h;
           simp [fw_getattribute, special8, internal3, property_ical_names,
             object_getattr_fw, lookupOverlay])
  · cases a <;>
      first
        | exact Except.noConfusion hg
        | exact absurd hf (by decide)
        | (injection hg with h
           subst h
           simp [fw_getattribute, special8, internal3, property_ical_names,
             resolvedOriginal, object_getattr_fw, lookupOverlay]
           done)
        | (rcases hf with hf | hf <;> simp [internal3, property_ical_names] at hf)
  · injection hg with h
    subst h
    exact ⟨rfl, rfl⟩

/-- C10: sub_properties never raises (it is total); a null sub-properties
string yields the empty dictionary; the result equals the claim-side
dictionary built from the semicolon-separated tokens with exactly one
equality sign; and every entry of the result is the key and value of such
a token. -/
theorem sub_properties_spec :
    sub_properties none = []
    ∧ (∀ sp, sub_properties sp = sub_properties_claimed sp)
    ∧ (∀ s k v, (k, v) ∈ sub_properties (some s) →
        ∃ t, t ∈ pySplit ';' s ∧ countEqChar t = 1
          ∧ k = keyOf t ∧ v = valOf t) := by
  refine ⟨rfl, fun sp => ?_, fun s k v hm => ?_⟩
  · cases sp <;> rfl
  · have hmem := mem_foldl_dictInsert
      (fun p => ∃ t, t ∈ pySplit ';' s ∧ countEqChar t = 1
        ∧ p.1 = keyOf t ∧ p.2 = valOf t)
      ((pySplit ';' s).filter (fun t => countEqChar t == 1)) []
      (fun p hp => absurd hp (List.not_mem_nil p))
      (fun t ht => ?_) (k, v) hm
    · exact hmem
    · rw [List.mem_filter] at ht
      exact ⟨t, ht.1, by simpa using ht.2, rfl, rfl⟩

end ICal
